import Mathlib

/-!
Verification development for the `ddd-helpers` library: a shallow embedding
of its message model, message queue, message bus, tracking/eventful
repositories and singleton metaclass, together with theorems settling the
frozen specification claims.

Source correspondence:
* `src/ddd/messages/message.py`, `event.py` — the message model;
* `src/ddd/queue.py` — absent from the source tree (only its unit tests
  remain); the `MessageQueue` operations are modelled from the spec;
* `src/ddd/messagebus.py` — `BaseMessageBus`;
* `src/ddd/errors.py` — absent from the source tree; the error taxonomy is
  modelled from the spec;
* `src/ddd/metaclasses/tracker.py`, `src/ddd/decorators/tracking.py`,
  `src/ddd/repositories.py` — tracking wrappers;
* `src/ddd/repositories/eventful_repository.py`, `src/ddd/repositories.py`
  — `EventfulRepository.collect_events`;
* `src/ddd/metaclasses/singleton.py` — `SingletonMeta`.
-/

namespace DDD

/-- Kind of a message: Python distinguishes commands from events with
`isinstance` checks against `AbstractCommand` / `AbstractEvent`
(`messagebus.py`, `handle_message`). -/
inductive MsgKind where
  | command
  | event
deriving DecidableEq, Repr

/-- A message (`AbstractMessage` in `messages/message.py`): carries a
creation timestamp `created_at`, set once at construction.  `typeId`
stands for the concrete Python class of the message (handler tables are
keyed by `type(message)`), and `mid` stands for the payload fields a
concrete dataclass subclass adds, so that distinct messages with equal
timestamps can be told apart. -/
structure Message where
  kind : MsgKind
  typeId : Nat
  mid : Nat
  created_at : Nat
deriving DecidableEq, Repr

/-- Ordering of messages (`AbstractMessage.__lt__` / `__gt__`):
`a < b  iff  a.created_at < b.created_at`. -/
def msgLT (a b : Message) : Prop := a.created_at < b.created_at

/-- Non-strict timestamp comparison used by the sort invariant. -/
def timeLE (a b : Message) : Prop := a.created_at ≤ b.created_at

instance : DecidableRel timeLE := fun a b => by
  unfold timeLE; infer_instance

/-- Modelled from the spec: `src/ddd/queue.py` is absent from the source
tree.  Per the spec the queue is always kept sorted ascending by
`created_at` with a stable sort, and the unit tests
(`tests/unit/test_message_queue.py`) confirm construction, `append` and
`extend` each re-establish the sorted order.  `insertMsg` inserts a
message after every element whose timestamp is less than or equal to its
own, which is exactly a stable insertion into a sorted list (an incoming
message goes after already-queued messages with an equal timestamp). -/
def insertMsg (m : Message) : List Message → List Message
  | [] => [m]
  | x :: xs =>
    if x.created_at ≤ m.created_at then x :: insertMsg m xs
    else m :: x :: xs

/-- Modelled from the spec: stable sort of a list of messages by
`created_at` (insertion sort built from `insertMsg`). -/
def mqSort (l : List Message) : List Message :=
  l.foldl (fun acc m => insertMsg m acc) []

/-- Modelled from the spec: `MessageQueue(iterable)` — construction sorts
the given messages. -/
def mqNew (ms : List Message) : List Message := mqSort ms

/-- Modelled from the spec: `MessageQueue.append` — add one message and
re-establish the sort invariant. -/
def mqAppend (q : List Message) (m : Message) : List Message :=
  mqSort (q ++ [m])

/-- Modelled from the spec: `MessageQueue.extend` — add several messages
and re-establish the sort invariant. -/
def mqExtend (q : List Message) (ms : List Message) : List Message :=
  mqSort (q ++ ms)

/-- Modelled from the spec: `MessageQueue.popleft` — remove and return the
front message; popping an empty queue fails (`EmptyQueueError`), rendered
here as `none`. -/
def mqPopleft : List Message → Option (Message × List Message)
  | [] => none
  | m :: rest => some (m, rest)

/-- The queue's sort invariant: non-decreasing `created_at`. -/
def MQSorted (l : List Message) : Prop := l.Pairwise timeLE

theorem insertMsg_perm (m : Message) (q : List Message) :
    (insertMsg m q).Perm (m :: q) := by
  induction q with
  | nil => simp [insertMsg]
  | cons x xs ih =>
    unfold insertMsg
    by_cases h : x.created_at ≤ m.created_at
    · simp only [h, if_true]
      exact (ih.cons x).trans (List.Perm.swap m x xs)
    · simp [h]

theorem insertMsg_sorted {q : List Message} (m : Message)
    (hq : MQSorted q) : MQSorted (insertMsg m q) := by
  induction q with
  | nil => simp [insertMsg, MQSorted]
  | cons x xs ih =>
    rcases (List.pairwise_cons.mp hq) with ⟨hx, hxs⟩
    unfold insertMsg
    by_cases h : x.created_at ≤ m.created_at
    · simp only [h, if_true]
      refine List.pairwise_cons.mpr ⟨?_, ih hxs⟩
      intro a ha
      have ha' : a = m ∨ a ∈ xs :=
        List.mem_cons.mp ((insertMsg_perm m xs).mem_iff.mp ha)
      rcases ha' with rfl | ha'
      · exact h
      · exact hx a ha'
    · simp only [h, if_false]
      refine List.pairwise_cons.mpr ⟨?_, hq⟩
      intro a ha
      have hm : m.created_at ≤ x.created_at := Nat.le_of_not_le h
      rcases List.mem_cons.mp ha with rfl | ha'
      · exact hm
      · exact Nat.le_trans hm (hx a ha')

theorem insertMsg_filter {q : List Message} (m : Message) (t : Nat)
    (hq : MQSorted q) :
    (insertMsg m q).filter (fun a => a.created_at == t)
      = q.filter (fun a => a.created_at == t)
        ++ (if m.created_at == t then [m] else []) := by
  induction q with
  | nil =>
    by_cases hmt : (m.created_at == t) = true
    · simp [insertMsg, hmt]
    · simp [insertMsg, hmt]
  | cons x xs ih =>
    rcases (List.pairwise_cons.mp hq) with ⟨hx, hxs⟩
    unfold insertMsg
    by_cases h : x.created_at ≤ m.created_at
    · simp only [h, if_true, List.filter_cons]
      by_cases hxt : (x.created_at == t) = true
      · simp [hxt, ih hxs]
      · simp [hxt, ih hxs]
    · simp only [h, if_false]
      by_cases hmt : (m.created_at == t) = true
      · have hmt' : m.created_at = t := by simpa using hmt
        have hnil : (x :: xs).filter (fun a => a.created_at == t) = [] := by
          apply List.filter_eq_nil_iff.mpr
          intro a ha
          have hax : x.created_at ≤ a.created_at := by
            rcases List.mem_cons.mp ha with rfl | ha'
            · exact Nat.le_refl _
            · exact hx a ha'
          have hlt : t < a.created_at :=
            Nat.lt_of_lt_of_le (hmt' ▸ Nat.lt_of_not_le h) hax
          simp [Nat.ne_of_gt hlt]
        rw [List.filter_cons, if_pos hmt, hnil, if_pos hmt]
        simp
      · rw [List.filter_cons, if_neg hmt, if_neg hmt]
        simp

theorem foldl_insert_sorted (l : List Message) :
    ∀ acc : List Message, MQSorted acc →
      MQSorted (l.foldl (fun a m => insertMsg m a) acc) := by
  induction l with
  | nil => intro acc hacc; simpa using hacc
  | cons x xs ih =>
    intro acc hacc
    simpa using ih (insertMsg x acc) (insertMsg_sorted x hacc)

theorem foldl_insert_filter (l : List Message) (t : Nat) :
    ∀ acc : List Message, MQSorted acc →
      (l.foldl (fun a m => insertMsg m a) acc).filter
          (fun a => a.created_at == t)
        = acc.filter (fun a => a.created_at == t)
          ++ l.filter (fun a => a.created_at == t) := by
  induction l with
  | nil => intro acc _; simp
  | cons x xs ih =>
    intro acc hacc
    have step := ih (insertMsg x acc) (insertMsg_sorted x hacc)
    simp only [List.foldl_cons] at step ⊢
    rw [step, insertMsg_filter x t hacc, List.filter_cons]
    by_cases hxt : (x.created_at == t) = true
    · simp [hxt]
    · simp [hxt]

theorem mqSort_sorted (l : List Message) : MQSorted (mqSort l) :=
  foldl_insert_sorted l [] (by simp [MQSorted])

/-- Stability of the modelled sort: for every timestamp `t`, sorting
preserves the relative order of the messages whose timestamp is `t`. -/
theorem mqSort_filter (l : List Message) (t : Nat) :
    (mqSort l).filter (fun a => a.created_at == t)
      = l.filter (fun a => a.created_at == t) := by
  have := foldl_insert_filter l t [] (by simp [MQSorted])
  simpa [mqSort] using this

theorem mqSort_perm (l : List Message) : (mqSort l).Perm l := by
  have main : ∀ (l acc : List Message),
      (l.foldl (fun a m => insertMsg m a) acc).Perm (acc ++ l) := by
    intro l
    induction l with
    | nil => intro acc; simp
    | cons x xs ih =>
      intro acc
      simp only [List.foldl_cons]
      refine (ih (insertMsg x acc)).trans ?_
      have h1 : (insertMsg x acc ++ xs).Perm ((x :: acc) ++ xs) :=
        List.Perm.append_right xs (insertMsg_perm x acc)
      refine h1.trans ?_
      simpa using (@List.perm_middle _ x acc xs).symm
  simpa using main l []

/-- Modelled from the spec: `src/ddd/errors.py` is absent from the source
tree.  Errors that can escape the embedded operations.
`baseError` stands for the library's own
`BaseError` family (a "recognized domain error" in the spec, carrying a
code for the concrete error value), while `keyError` and `typeError` are
Python's builtin exceptions raised by dictionary lookups and type checks
in `messagebus.py`.  `otherError` stands for any unrecognized exception a
handler may raise.  `unregisteredHandlerError` is modelled from the spec:
the spec's error taxonomy names `UnregisteredHandlerError` for a command
with no subscribed handler, but no operation embedded here raises it —
`BaseMessageBus.handle_command` looks the handler up with a plain
dictionary access, and a Python `dict` raises the builtin `KeyError`,
which a custom `BaseError` subclass can never be an ancestor of. -/
inductive PyErr where
  | keyError (k : Nat)
  | typeError
  | baseError (code : Nat)
  | otherError (code : Nat)
  | unregisteredHandlerError
deriving DecidableEq, Repr

/-- Result of invoking a handler: it returns normally, raises a recognized
domain error (`BaseError`), or raises any other exception. -/
inductive HEffect where
  | ok
  | raiseBase (code : Nat)
  | raiseOther (code : Nat)
deriving DecidableEq, Repr

/-- A handler function.  `hid` is the handler's identity (so invocation
order can be observed); `run` receives the message and the unit of work's
pending event queue and returns its outcome together with the new pending
queue — the only side effect of a handler that `BaseMessageBus` can
observe is which events become collectable from the unit of work
(a handler mutates aggregates, whose queues the tracking repositories
drain into the unit of work on `collect_events`). -/
structure Handler where
  hid : Nat
  run : Message → List Message → HEffect × List Message

/-- A message bus (`BaseMessageBus.__init__`): a command-handler table
with at most one handler per command type, an event-handler table with a
list of handlers per event type, and a unit of work.  The tables are
keyed by the concrete message type and are partial: a type the caller
never put in the dictionary maps to `none`.  `eventful` records whether
the unit of work has a `collect_events` attribute
(`BaseMessageBus.collect_events` checks `hasattr`). -/
structure Bus where
  commandHandlers : Nat → Option Handler
  eventHandlers : Nat → Option (List Handler)
  eventful : Bool

/-- State threaded through one `handle()` call: the working queue
(`self.queue`), the unit of work's pending event queue (what
`uow.collect_events()` would yield), and three observation traces —
the messages popped and dispatched, the handler invocations (handler id
paired with the message's `mid`), and the errors logged by
`log.exception`. -/
structure BusState where
  queue : List Message
  pending : List Message
  processed : List Message
  invoked : List (Nat × Nat)
  elog : List PyErr
deriving DecidableEq, Repr

/-- `BaseMessageBus.collect_events`: when the unit of work has a
`collect_events` attribute, materialize the generator
(`list(eventcollector(self.uow))` drains the unit of work's queue
completely) and `extend` the working queue with the result. -/
def collectEvts (bus : Bus) (st : BusState) : BusState :=
  if bus.eventful then
    { st with queue := mqExtend st.queue st.pending, pending := [] }
  else st

/-- `BaseMessageBus.handle_command`: look up the single handler for the
command's concrete type (a plain dictionary access — a missing key raises
the builtin `KeyError`, which the `except BaseError` clause does not
catch), invoke it, and only on success collect events.  A `BaseError`
raised by the handler is logged and re-raised; any other exception
propagates unchanged.  Errors carry the state at the point of raising. -/
def handleCommand (bus : Bus) (c : Message) (st : BusState) :
    Except (PyErr × BusState) BusState :=
  match bus.commandHandlers c.typeId with
  | none => .error (.keyError c.typeId, st)
  | some h =>
    let st0 := { st with invoked := st.invoked ++ [(h.hid, c.mid)] }
    match h.run c st0.pending with
    | (.ok, p) => .ok (collectEvts bus { st0 with pending := p })
    | (.raiseBase code, p) =>
      .error (.baseError code,
        { st0 with pending := p, elog := st0.elog ++ [.baseError code] })
    | (.raiseOther code, p) =>
      .error (.otherError code, { st0 with pending := p })

/-- The handler loop of `BaseMessageBus.handle_event`: invoke each
registered handler in order; a `BaseError` from a handler is logged and
the loop continues with the next handler; any other exception propagates
immediately; after each successful handler the bus collects events. -/
def runEventHandlers (bus : Bus) (ev : Message) :
    List Handler → BusState → Except (PyErr × BusState) BusState
  | [], st => .ok st
  | h :: hs, st =>
    let st0 := { st with invoked := st.invoked ++ [(h.hid, ev.mid)] }
    match h.run ev st0.pending with
    | (.ok, p) =>
      runEventHandlers bus ev hs (collectEvts bus { st0 with pending := p })
    | (.raiseBase code, p) =>
      runEventHandlers bus ev hs
        { st0 with pending := p, elog := st0.elog ++ [.baseError code] }
    | (.raiseOther code, p) =>
      .error (.otherError code, { st0 with pending := p })

/-- `BaseMessageBus.handle_event`: look up the handler list for the event's
concrete type (a plain dictionary access — a type absent from the
dictionary raises the builtin `KeyError`) and run the handler loop. -/
def handleEvent (bus : Bus) (ev : Message) (st : BusState) :
    Except (PyErr × BusState) BusState :=
  match bus.eventHandlers ev.typeId with
  | none => .error (.keyError ev.typeId, st)
  | some hs => runEventHandlers bus ev hs st

/-- `BaseMessageBus.handle_message`: dispatch on the message's kind. -/
def handleMessage (bus : Bus) (m : Message) (st : BusState) :
    Except (PyErr × BusState) BusState :=
  match m.kind with
  | .command => handleCommand bus m st
  | .event => handleEvent bus m st

/-- Outcome of one `handle()` call: the loop drained the queue (`done`),
an exception propagated to the caller (`raised`), or the supplied fuel
ran out before the loop finished (the Python loop has no fuel; `fuelOut`
only marks that more fuel is needed to decide the run). -/
inductive Outcome where
  | done (st : BusState)
  | raised (e : PyErr) (st : BusState)
  | fuelOut (st : BusState)
deriving DecidableEq, Repr

/-- The `while self.queue` loop of `BaseMessageBus.handle`: pop the front
message, dispatch it, continue until the queue is empty or an exception
propagates. -/
def busLoop (bus : Bus) : Nat → BusState → Outcome
  | 0, st => .fuelOut st
  | fuel + 1, st =>
    match st.queue with
    | [] => .done st
    | m :: rest =>
      let st1 := { st with queue := rest, processed := st.processed ++ [m] }
      match handleMessage bus m st1 with
      | .ok st2 => busLoop bus fuel st2
      | .error (e, st2) => .raised e st2

/-- `BaseMessageBus.handle`: reset the working queue to exactly
`[message]` and run the dispatch loop.  `p0` is the unit of work's
pending event queue at the time of the call. -/
def busHandle (bus : Bus) (fuel : Nat) (m : Message) (p0 : List Message) :
    Outcome :=
  busLoop bus fuel { queue := mqNew [m], pending := p0, processed := [],
                     invoked := [], elog := [] }

/-- The kind of a Python class passed to `subscribe`: a `Command`
subclass, an `Event` subclass, or neither (`issubclass` checks in
`BaseMessageBus.subscribe`). -/
inductive SubKind where
  | commandT
  | eventT
  | otherT
deriving DecidableEq, Repr

/-- A message type as `subscribe` sees it: its place in the class
hierarchy and the concrete type key used by the handler tables. -/
structure MsgType where
  kind : SubKind
  tid : Nat
deriving DecidableEq, Repr

/-- `BaseMessageBus.subscribe`: a handler for a `Command` subclass
replaces any existing entry (`self.command_handlers[message] = handler`);
a handler for an `Event` subclass is appended to the existing list
(`self.event_handlers[message].append(handler)` — a plain dictionary
access, so a type with no existing list raises the builtin `KeyError`);
any other type raises `TypeError`.  Returns the raised error, if any,
together with the resulting bus. -/
def subscribe (bus : Bus) (mt : MsgType) (h : Handler) :
    Option PyErr × Bus :=
  match mt.kind with
  | .commandT =>
    (none, { bus with commandHandlers :=
      fun t => if t = mt.tid then some h else bus.commandHandlers t })
  | .eventT =>
    match bus.eventHandlers mt.tid with
    | some hs =>
      (none, { bus with eventHandlers :=
        fun t => if t = mt.tid then some (hs ++ [h])
                 else bus.eventHandlers t })
    | none => (some (.keyError mt.tid), bus)
  | .otherT => (some .typeError, bus)

/-- Objects tracked by a repository (aggregates); identified by a key. -/
abbrev Obj := Nat

/-- References passed to `get`. -/
abbrev Ref := Nat

/-- Result of a call into the underlying (wrapped) repository method:
normal return, or a raised exception carrying a code. -/
inductive PyRes (α : Type) where
  | ok (v : α)
  | err (e : Nat)
deriving DecidableEq, Repr

/-- Python `set.add` on the `seen` set, modelled as an insertion-ordered
deduplicating list.  The element type is `Option Obj` because Python's
`None` is itself a hashable value a set can hold. -/
def insertSeen (seen : List (Option Obj)) (x : Option Obj) :
    List (Option Obj) :=
  if x ∈ seen then seen else seen ++ [x]

/-- `TrackerMeta.wrap_add_method` (`metaclasses/tracker.py`, and the
identical `Tracker.wrap_add_method` in `repositories.py`): call the
underlying `add`; only when it returns does `seen.add(obj)` run. -/
def metaWrapAdd (method : Obj → PyRes Unit) (seen : List (Option Obj))
    (obj : Obj) : PyRes Unit × List (Option Obj) :=
  match method obj with
  | .ok _ => (.ok (), insertSeen seen (some obj))
  | .err e => (.err e, seen)

/-- `TrackerMeta.wrap_get_method`: call the underlying `get` and then run
`seen.add(result)` unconditionally — the wrapper has no null check, so a
`get` that returns `None` adds `None` to the seen set. -/
def metaWrapGet (method : Ref → PyRes (Option Obj))
    (seen : List (Option Obj)) (ref : Ref) :
    PyRes (Option Obj) × List (Option Obj) :=
  match method ref with
  | .ok v => (.ok v, insertSeen seen v)
  | .err e => (.err e, seen)

/-- `TrackerMeta.wrap_list_method`: call the underlying `list` and run
`seen.update(results)` on success. -/
def metaWrapList (method : PyRes (List Obj)) (seen : List (Option Obj)) :
    PyRes (List Obj) × List (Option Obj) :=
  match method with
  | .ok vs => (.ok vs, vs.foldl (fun s v => insertSeen s (some v)) seen)
  | .err e => (.err e, seen)

/-- `TrackerMeta.wrap_remove_method`: call the underlying `remove` and run
`seen.discard(obj)` on success. -/
def metaWrapRemove (method : Obj → PyRes Unit) (seen : List (Option Obj))
    (obj : Obj) : PyRes Unit × List (Option Obj) :=
  match method obj with
  | .ok _ => (.ok (), seen.filter (fun x => x != some obj))
  | .err e => (.err e, seen)

/-- `track_single_return_value` (`decorators/tracking.py`): call the
wrapped method; record the result in the seen set only when it is not
`None` (`if result is not None: add_seen_object(self, result)`). -/
def trackSingleReturnValue (method : Ref → PyRes (Option Obj))
    (seen : List (Option Obj)) (ref : Ref) :
    PyRes (Option Obj) × List (Option Obj) :=
  match method ref with
  | .ok none => (.ok none, seen)
  | .ok (some v) => (.ok (some v), insertSeen seen (some v))
  | .err e => (.err e, seen)

/-- An aggregate as the eventful repository sees it: an identity and its
private `events` queue (drained front to back). -/
structure Agg where
  aid : Nat
  events : List Message
deriving DecidableEq, Repr

/-- State of an `EventfulRepository`: the aggregates currently in its
seen set (in iteration order) and its own `_events` queue. -/
structure RepoState where
  seen : List Agg
  own : List Message
deriving DecidableEq, Repr

/-- `EventfulRepository.collect_events`
(`repositories/eventful_repository.py`, and the equivalent
`repositories.py` version): pop every event from each seen aggregate's
queue (draining it), extend the repository's own queue with them, sort
it by timestamp, then yield the queue front-to-front until empty.
Returns the materialized yielded sequence and the resulting state: every
drained aggregate queue and the repository's own queue are empty. -/
def collectEventsRepo (st : RepoState) : List Message × RepoState :=
  let harvested := (st.seen.map Agg.events).flatten
  (mqSort (st.own ++ harvested),
   { seen := st.seen.map (fun a => { a with events := [] }), own := [] })

/-- An object constructed by a class whose metaclass is `SingletonMeta`:
`iid` is the Python object identity and `flag` the value of its
`__singleton__` attribute. -/
structure Inst where
  iid : Nat
  flag : Bool
deriving DecidableEq, Repr

/-- State of `SingletonMeta`: the `_instances` map (shared across all
subclasses, keyed by the class's hash key) and a counter supplying fresh
object identities. -/
structure SMState where
  instances : List (Nat × Inst)
  nextId : Nat
deriving DecidableEq, Repr

/-- Lookup in the `_instances` map. -/
def lookupInst (l : List (Nat × Inst)) (k : Nat) : Option Inst :=
  (l.find? (fun p => p.1 == k)).map Prod.snd

/-- `SingletonMeta.__call__` (`metaclasses/singleton.py`): when the
class's key is not in `_instances`, construct a fresh instance and store
it only when it carries `__singleton__ = True` (`is_singleton`); then
return `cls._instances[key]` — a plain dictionary access, raising the
builtin `KeyError` when no entry was stored.  `key` is the class's hash
key and `flag` the `__singleton__` attribute its instances carry. -/
def singletonCall (key : Nat) (flag : Bool) (st : SMState) :
    Except PyErr Inst × SMState :=
  let st1 :=
    match lookupInst st.instances key with
    | some _ => st
    | none =>
      if flag then
        { instances := st.instances ++ [(key, ⟨st.nextId, flag⟩)],
          nextId := st.nextId + 1 }
      else { st with nextId := st.nextId + 1 }
  match lookupInst st1.instances key with
  | some inst => (.ok inst, st1)
  | none => (.error (.keyError key), st1)

/-! Concrete fixtures used by witnesses and counterexamples. -/

/-- Concrete command (type key 0) for scenario runs. -/
def wMsgC : Message := ⟨.command, 0, 100, 0⟩

/-- Concrete event at timestamp 1 (type key 1). -/
def wMsgE1 : Message := ⟨.event, 1, 101, 1⟩

/-- Concrete event at timestamp 2 (type key 2). -/
def wMsgE2 : Message := ⟨.event, 2, 102, 2⟩

/-- Command handler that makes `wMsgE1` collectable. -/
def wHC : Handler := ⟨10, fun _ p => (.ok, p ++ [wMsgE1])⟩

/-- Event handler that makes `wMsgE2` collectable. -/
def wHE1 : Handler := ⟨11, fun _ p => (.ok, p ++ [wMsgE2])⟩

/-- Event handler with no observable effect. -/
def wHE2 : Handler := ⟨12, fun _ p => (.ok, p)⟩

/-- Event handler that raises a domain error (`BaseError` code 77). -/
def wHRaise : Handler := ⟨21, fun _ p => (.raiseBase 77, p)⟩

/-- Command handler that raises a domain error (code 88) after making
`wMsgE1` collectable. -/
def wHCmdRaise : Handler := ⟨31, fun _ p => (.raiseBase 88, p ++ [wMsgE1])⟩

/-- Bus wired for the harvest-interleaving scenario. -/
def wBusC1 : Bus :=
  ⟨fun t => if t = 0 then some wHC else none,
   fun t => if t = 1 then some [wHE1]
            else if t = 2 then some [wHE2] else none,
   true⟩

/-- Bus with completely empty handler tables. -/
def wBusEmpty : Bus := ⟨fun _ => none, fun _ => none, true⟩

/-- Bus whose event table holds an empty handler list for type key 3. -/
def wBusE5 : Bus :=
  ⟨fun _ => none, fun t => if t = 3 then some [] else none, true⟩

/-- Bus wired for the event fan-out scenario: type key 4 has a raising
handler followed by a succeeding one. -/
def wBusC2 : Bus :=
  ⟨fun _ => none, fun t => if t = 4 then some [wHRaise, wHE2] else none,
   true⟩

/-- Bus wired for the command-fatality scenario: type key 5 has a raising
command handler. -/
def wBusC3 : Bus :=
  ⟨fun t => if t = 5 then some wHCmdRaise else none, fun _ => none, true⟩

/-! Claim theorems. -/

/-- C1: harvest-interleaving dispatch order.  For every `handle(C)` call
where `C` is a command whose registered handler makes event `E1`
(a later timestamp) collectable from the unit of work, and `E1`'s
registered handler makes `E2` (later still) collectable, the bus
processes the messages in the order `C, E1, E2`, terminates with an
empty working queue, and a further `collect_events()` on the unit of
work (the `pending` component) yields nothing. -/
theorem c1_harvest_interleaving
    (bus : Bus) (tc te1 te2 mc me1 me2 t0 t1 t2 : Nat)
    (hC h1 h2 : Handler)
    (_ht01 : t0 < t1) (_ht12 : t1 < t2)
    (hbc : bus.commandHandlers tc = some hC)
    (hbe1 : bus.eventHandlers te1 = some [h1])
    (hbe2 : bus.eventHandlers te2 = some [h2])
    (huow : bus.eventful = true)
    (hrunC : hC.run ⟨.command, tc, mc, t0⟩ [] = (.ok, [⟨.event, te1, me1, t1⟩]))
    (hrun1 : h1.run ⟨.event, te1, me1, t1⟩ [] = (.ok, [⟨.event, te2, me2, t2⟩]))
    (hrun2 : h2.run ⟨.event, te2, me2, t2⟩ [] = (.ok, [])) :
    busHandle bus 4 ⟨.command, tc, mc, t0⟩ [] =
      .done { queue := [], pending := [],
              processed := [⟨.command, tc, mc, t0⟩, ⟨.event, te1, me1, t1⟩,
                            ⟨.event, te2, me2, t2⟩],
              invoked := [(hC.hid, mc), (h1.hid, me1), (h2.hid, me2)],
              elog := [] } := by
  simp [busHandle, busLoop, handleMessage, handleCommand, handleEvent,
        runEventHandlers, collectEvts, mqNew, mqExtend, mqSort, insertMsg,
        hbc, hbe1, hbe2, huow, hrunC, hrun1, hrun2]

/-- Witness for C1 at a fully concrete bus and message set. -/
theorem c1_harvest_interleaving_witness :
    busHandle wBusC1 4 ⟨.command, 0, 100, 0⟩ [] =
      .done { queue := [], pending := [],
              processed := [⟨.command, 0, 100, 0⟩, ⟨.event, 1, 101, 1⟩,
                            ⟨.event, 2, 102, 2⟩],
              invoked := [(10, 100), (11, 101), (12, 102)],
              elog := [] } :=
  c1_harvest_interleaving wBusC1 0 1 2 100 101 102 0 1 2 wHC wHE1 wHE2
    (by decide) (by decide) rfl rfl rfl rfl rfl rfl rfl

/-- C2: event fan-out isolation.  For an event whose registered handler
list is `[H1, H2]` where `H1` raises a recognized domain error and `H2`
succeeds, both handlers are invoked in registration order, `H1`'s error
is logged, and the error neither prevents `H2` from running nor
propagates to the caller of `handle()`. -/
theorem c2_event_fanout_isolation
    (bus : Bus) (te me t d : Nat) (h1 h2 : Handler) (p1 : List Message)
    (hbe : bus.eventHandlers te = some [h1, h2])
    (huow : bus.eventful = true)
    (hrun1 : h1.run ⟨.event, te, me, t⟩ [] = (.raiseBase d, p1))
    (hrun2 : h2.run ⟨.event, te, me, t⟩ p1 = (.ok, [])) :
    busHandle bus 2 ⟨.event, te, me, t⟩ [] =
      .done { queue := [], pending := [],
              processed := [⟨.event, te, me, t⟩],
              invoked := [(h1.hid, me), (h2.hid, me)],
              elog := [.baseError d] } := by
  simp [busHandle, busLoop, handleMessage, handleEvent, runEventHandlers,
        collectEvts, mqNew, mqExtend, mqSort, insertMsg, hbe, huow,
        hrun1, hrun2]

/-- Witness for C2 at a concrete bus with a raising and a succeeding
handler. -/
theorem c2_event_fanout_isolation_witness :
    busHandle wBusC2 2 ⟨.event, 4, 300, 0⟩ [] =
      .done { queue := [], pending := [],
              processed := [⟨.event, 4, 300, 0⟩],
              invoked := [(21, 300), (12, 300)],
              elog := [.baseError 77] } :=
  c2_event_fanout_isolation wBusC2 4 300 0 77 wHRaise wHE2 []
    rfl rfl rfl rfl

/-- C3: command fatality.  For every command whose registered handler
raises a recognized domain error, `handle()` raises that same error to
the caller; the events the handler made collectable are never collected
from the unit of work (they stay in `pending`), and no further message
is processed after the failing command. -/
theorem c3_command_fatality
    (bus : Bus) (fuel tc mc t d : Nat) (h : Handler) (p0 p1 : List Message)
    (hbc : bus.commandHandlers tc = some h)
    (hrun : h.run ⟨.command, tc, mc, t⟩ p0 = (.raiseBase d, p1)) :
    busHandle bus (fuel + 1) ⟨.command, tc, mc, t⟩ p0 =
      .raised (.baseError d)
        { queue := [], pending := p1,
          processed := [⟨.command, tc, mc, t⟩],
          invoked := [(h.hid, mc)], elog := [.baseError d] } := by
  simp [busHandle, busLoop, handleMessage, handleCommand, mqNew, mqSort,
        insertMsg, hbc, hrun]

/-- Witness for C3: the raising command handler leaves its produced event
undrained in the unit of work. -/
theorem c3_command_fatality_witness :
    busHandle wBusC3 1 ⟨.command, 5, 400, 0⟩ [] =
      .raised (.baseError 88)
        { queue := [], pending := [wMsgE1],
          processed := [⟨.command, 5, 400, 0⟩],
          invoked := [(31, 400)], elog := [.baseError 88] } :=
  c3_command_fatality wBusC3 0 5 400 0 88 wHCmdRaise [] [wMsgE1] rfl rfl

/-- C4 counterexample: dispatching a command with no subscribed handler
raises the builtin `KeyError` from the dictionary lookup in
`handle_command`, not an `UnregisteredHandlerError`; the two are
distinct errors. -/
theorem c4_unregistered_command_cex :
    busHandle wBusEmpty 1 ⟨.command, 7, 200, 0⟩ [] =
      .raised (.keyError 7)
        { queue := [], pending := [], processed := [⟨.command, 7, 200, 0⟩],
          invoked := [], elog := [] }
    ∧ PyErr.keyError 7 ≠ PyErr.unregisteredHandlerError := by
  exact ⟨rfl, by decide⟩

/-- C4 (amended): for every command type with no subscribed handler,
`handle()` raises the builtin `KeyError` for that type (the plain
dictionary lookup in `handle_command`, not caught by the `BaseError`
clause) and produces no side effects: no handler is invoked, nothing is
logged, and the unit of work's pending events are untouched. -/
theorem c4_unregistered_command
    (bus : Bus) (fuel tc mc t : Nat) (p0 : List Message)
    (hbc : bus.commandHandlers tc = none) :
    busHandle bus (fuel + 1) ⟨.command, tc, mc, t⟩ p0 =
      .raised (.keyError tc)
        { queue := [], pending := p0, processed := [⟨.command, tc, mc, t⟩],
          invoked := [], elog := [] } := by
  simp [busHandle, busLoop, handleMessage, handleCommand, mqNew, mqSort,
        insertMsg, hbc]

/-- Witness for the amended C4 at a concrete empty bus. -/
theorem c4_unregistered_command_witness :
    busHandle wBusEmpty 1 ⟨.command, 7, 200, 0⟩ [] =
      .raised (.keyError 7)
        { queue := [], pending := [], processed := [⟨.command, 7, 200, 0⟩],
          invoked := [], elog := [] } :=
  c4_unregistered_command wBusEmpty 0 7 200 0 [] rfl

/-- C5 counterexample: an event whose concrete type has zero registered
handlers because the type is absent from the event-handler table is NOT
benign — the dictionary lookup in `handle_event` raises the builtin
`KeyError`, so `handle()` does not return normally. -/
theorem c5_no_handler_event_cex :
    busHandle wBusEmpty 1 ⟨.event, 3, 201, 0⟩ [] =
      .raised (.keyError 3)
        { queue := [], pending := [], processed := [⟨.event, 3, 201, 0⟩],
          invoked := [], elog := [] } := by
  exact rfl

/-- C5 (amended): dispatching an event is benign exactly when its concrete
type is present in the event-handler table, with an empty handler list:
then `handle()` returns normally without invoking any handler.  When the
type is absent from the table, the lookup raises `KeyError` instead. -/
theorem c5_no_handler_event
    (bus : Bus) (te me t : Nat) (p0 : List Message)
    (hbe : bus.eventHandlers te = some []) :
    busHandle bus 2 ⟨.event, te, me, t⟩ p0 =
      .done { queue := [], pending := p0, processed := [⟨.event, te, me, t⟩],
              invoked := [], elog := [] } := by
  simp [busHandle, busLoop, handleMessage, handleEvent, runEventHandlers,
        mqNew, mqSort, insertMsg, hbe]

/-- Witness for the amended C5 at a concrete bus holding an empty handler
list for the event's type. -/
theorem c5_no_handler_event_witness :
    busHandle wBusE5 2 ⟨.event, 3, 201, 0⟩ [] =
      .done { queue := [], pending := [], processed := [⟨.event, 3, 201, 0⟩],
              invoked := [], elog := [] } :=
  c5_no_handler_event wBusE5 3 201 0 [] rfl

/-- Handler used in subscription fixtures. -/
def wHSub : Handler := ⟨40, fun _ p => (.ok, p)⟩

/-- Second handler used in subscription fixtures. -/
def wHSub2 : Handler := ⟨41, fun _ p => (.ok, p)⟩

/-- C6 counterexample: subscribing an event handler for a type that has
no entry in the event-handler table does not append it — the plain
dictionary access in `subscribe` raises the builtin `KeyError` and the
table is left without the type. -/
theorem c6_subscribe_semantics_cex :
    (subscribe wBusEmpty ⟨.eventT, 5⟩ wHSub).1 = some (PyErr.keyError 5)
    ∧ (subscribe wBusEmpty ⟨.eventT, 5⟩ wHSub).2.eventHandlers 5 = none :=
  ⟨rfl, rfl⟩

/-- C6 (amended): `subscribe(T, h)` replaces any existing handler when
`T` is a command subtype (after subscribing `h1` then `h2`, only `h2` is
active); when `T` is an event subtype it appends `h` to `T`'s existing
handler list, but only if the type already has an entry in the table — a
type with no entry raises `KeyError`; and a type that is neither command
nor event raises `TypeError`. -/
theorem c6_subscribe_semantics
    (busA busB : Bus) (tid : Nat) (h h1 h2 : Handler) (hs : List Handler)
    (hA : busA.eventHandlers tid = some hs)
    (hB : busB.eventHandlers tid = none) :
    ((subscribe busA ⟨.commandT, tid⟩ h1).1 = none
     ∧ (subscribe (subscribe busA ⟨.commandT, tid⟩ h1).2
          ⟨.commandT, tid⟩ h2).1 = none
     ∧ (subscribe (subscribe busA ⟨.commandT, tid⟩ h1).2
          ⟨.commandT, tid⟩ h2).2.commandHandlers tid = some h2)
    ∧ ((subscribe busA ⟨.eventT, tid⟩ h).1 = none
       ∧ (subscribe busA ⟨.eventT, tid⟩ h).2.eventHandlers tid
           = some (hs ++ [h]))
    ∧ subscribe busB ⟨.eventT, tid⟩ h = (some (.keyError tid), busB)
    ∧ subscribe busA ⟨.otherT, tid⟩ h = (some .typeError, busA) := by
  refine ⟨⟨rfl, rfl, by simp [subscribe]⟩, ⟨?_, ?_⟩, ?_, rfl⟩
  · simp [subscribe, hA]
  · simp [subscribe, hA]
  · simp [subscribe, hB]

/-- Witness for the amended C6: a bus with an existing (empty) handler
list for type 3 accepts appends there; the empty bus raises `KeyError`
for type 3; command registration replaces. -/
theorem c6_subscribe_semantics_witness :
    ((subscribe wBusE5 ⟨.commandT, 3⟩ wHSub).1 = none
     ∧ (subscribe (subscribe wBusE5 ⟨.commandT, 3⟩ wHSub).2
          ⟨.commandT, 3⟩ wHSub2).1 = none
     ∧ (subscribe (subscribe wBusE5 ⟨.commandT, 3⟩ wHSub).2
          ⟨.commandT, 3⟩ wHSub2).2.commandHandlers 3 = some wHSub2)
    ∧ ((subscribe wBusE5 ⟨.eventT, 3⟩ wHSub).1 = none
       ∧ (subscribe wBusE5 ⟨.eventT, 3⟩ wHSub).2.eventHandlers 3
           = some ([] ++ [wHSub]))
    ∧ subscribe wBusEmpty ⟨.eventT, 3⟩ wHSub
        = (some (.keyError 3), wBusEmpty)
    ∧ subscribe wBusE5 ⟨.otherT, 3⟩ wHSub = (some .typeError, wBusE5) :=
  c6_subscribe_semantics wBusE5 wBusEmpty 3 wHSub wHSub wHSub2 [] rfl rfl

/-- C7 counterexample: the metaclass tracking wrapper records a null
`get` result — calling the wrapped `get` on an underlying method that
successfully returns `None` adds `None` to the previously empty seen
set, so the recording is not restricted to non-null values. -/
theorem c7_tracking_rules_cex :
    (metaWrapGet (fun _ => PyRes.ok none) [] 0).2 = [none]
    ∧ ([none] : List (Option Obj)) ≠ [] :=
  ⟨rfl, by decide⟩

/-- C7 (amended): tracking is success-only for every wrapped operation —
whenever the underlying `add`, `get`, `list` or `remove` raises, the
seen set is left unchanged.  A successful `get` records the result only
if it is non-null under the decorator wrapper
(`track_single_return_value`), while the metaclass wrapper
(`TrackerMeta.wrap_get_method`) records the result unconditionally,
null included. -/
theorem c7_tracking_rules
    (seen : List (Option Obj)) (ref : Ref) (obj v e : Nat)
    (uNull uVal uErr : Ref → PyRes (Option Obj))
    (aOk aErr : Obj → PyRes Unit) (lErr : PyRes (List Obj))
    (h1 : uNull ref = .ok none)
    (h2 : uVal ref = .ok (some v))
    (h3 : uErr ref = .err e)
    (h4 : aErr obj = .err e)
    (h5 : lErr = .err e)
    (h6 : aOk obj = .ok ()) :
    trackSingleReturnValue uNull seen ref = (.ok none, seen)
    ∧ trackSingleReturnValue uVal seen ref
        = (.ok (some v), insertSeen seen (some v))
    ∧ metaWrapGet uNull seen ref = (.ok none, insertSeen seen none)
    ∧ metaWrapGet uVal seen ref
        = (.ok (some v), insertSeen seen (some v))
    ∧ metaWrapAdd aOk seen obj = (.ok (), insertSeen seen (some obj))
    ∧ (metaWrapGet uErr seen ref).2 = seen
    ∧ (trackSingleReturnValue uErr seen ref).2 = seen
    ∧ (metaWrapAdd aErr seen obj).2 = seen
    ∧ (metaWrapList lErr seen).2 = seen
    ∧ (metaWrapRemove aErr seen obj).2 = seen := by
  refine ⟨?_, ?_, ?_, ?_, ?_, ?_, ?_, ?_, ?_, ?_⟩ <;>
    simp [trackSingleReturnValue, metaWrapGet, metaWrapAdd, metaWrapList,
          metaWrapRemove, h1, h2, h3, h4, h5, h6]

/-- Witness for the amended C7 at concrete underlying methods. -/
theorem c7_tracking_rules_witness :
    trackSingleReturnValue (fun _ => PyRes.ok none) [] 0 = (.ok none, [])
    ∧ trackSingleReturnValue (fun _ => PyRes.ok (some 6)) [] 0
        = (.ok (some 6), insertSeen [] (some 6))
    ∧ metaWrapGet (fun _ => PyRes.ok none) [] 0
        = (.ok none, insertSeen [] none)
    ∧ metaWrapGet (fun _ => PyRes.ok (some 6)) [] 0
        = (.ok (some 6), insertSeen [] (some 6))
    ∧ metaWrapAdd (fun _ => PyRes.ok ()) [] 6
        = (.ok (), insertSeen [] (some 6))
    ∧ (metaWrapGet (fun _ => PyRes.err 9) [] 0).2 = []
    ∧ (trackSingleReturnValue (fun _ => PyRes.err 9) [] 0).2 = []
    ∧ (metaWrapAdd (fun _ => PyRes.err 9) [] 6).2 = []
    ∧ (metaWrapList (PyRes.err 9) []).2 = []
    ∧ (metaWrapRemove (fun _ => PyRes.err 9) [] 6).2 = [] :=
  c7_tracking_rules [] 0 6 6 9 (fun _ => PyRes.ok none)
    (fun _ => PyRes.ok (some 6)) (fun _ => PyRes.err 9)
    (fun _ => PyRes.ok ()) (fun _ => PyRes.err 9) (PyRes.err 9)
    rfl rfl rfl rfl rfl rfl

/-- C8: drain idempotence.  For every eventful repository with a
non-empty set of pending events (in its own queue or its seen
aggregates' queues), exhausting `collect_events()` yields exactly those
events (as a permutation, sorted by timestamp) and is non-empty; a
second `collect_events()` with no intervening mutation yields nothing;
and every drained aggregate's queue is empty afterwards. -/
theorem c8_drain_idempotence (st : RepoState)
    (hne : st.own ++ (st.seen.map Agg.events).flatten ≠ []) :
    (collectEventsRepo st).1 ≠ []
    ∧ (collectEventsRepo st).1.Perm
        (st.own ++ (st.seen.map Agg.events).flatten)
    ∧ (collectEventsRepo (collectEventsRepo st).2).1 = []
    ∧ ∀ a ∈ (collectEventsRepo st).2.seen, a.events = [] := by
  have hperm : (collectEventsRepo st).1.Perm
      (st.own ++ (st.seen.map Agg.events).flatten) :=
    mqSort_perm _
  refine ⟨?_, hperm, ?_, ?_⟩
  · intro h
    rw [h] at hperm
    exact hne hperm.symm.eq_nil
  · have hflat2 : (List.map
        (Agg.events ∘ fun a => { aid := a.aid, events := ([] : List Message) })
        st.seen).flatten = ([] : List Message) := by
      induction st.seen with
      | nil => simp
      | cons a l ih => simp [ih]
    simp [collectEventsRepo, mqSort, hflat2]
  · intro a ha
    simp only [collectEventsRepo, List.mem_map] at ha
    obtain ⟨b, _, rfl⟩ := ha
    rfl

/-- Witness for C8: one seen aggregate holding two events (out of
timestamp order) and one residual event in the repository's own queue. -/
theorem c8_drain_idempotence_witness :
    (collectEventsRepo ⟨[⟨1, [wMsgE2, wMsgE1]⟩], [wMsgC]⟩).1 ≠ []
    ∧ (collectEventsRepo ⟨[⟨1, [wMsgE2, wMsgE1]⟩], [wMsgC]⟩).1.Perm
        ([wMsgC] ++ (([⟨1, [wMsgE2, wMsgE1]⟩] : List Agg).map
          Agg.events).flatten)
    ∧ (collectEventsRepo
        (collectEventsRepo ⟨[⟨1, [wMsgE2, wMsgE1]⟩], [wMsgC]⟩).2).1 = []
    ∧ ∀ a ∈ (collectEventsRepo ⟨[⟨1, [wMsgE2, wMsgE1]⟩], [wMsgC]⟩).2.seen,
        a.events = [] :=
  c8_drain_idempotence ⟨[⟨1, [wMsgE2, wMsgE1]⟩], [wMsgC]⟩ (by decide)

/-- One mutation applied to a `MessageQueue`: `append` one message or
`extend` with a batch. -/
inductive MQOp where
  | app (m : Message)
  | ext (ms : List Message)

/-- The messages an operation inserts. -/
def opMsgs : MQOp → List Message
  | .app m => [m]
  | .ext ms => ms

/-- Apply one queue mutation. -/
def applyOp (q : List Message) : MQOp → List Message
  | .app m => mqAppend q m
  | .ext ms => mqExtend q ms

/-- Apply a sequence of queue mutations in order. -/
def applyOps (q : List Message) (ops : List MQOp) : List Message :=
  ops.foldl applyOp q

theorem applyOp_eq (q : List Message) (op : MQOp) :
    applyOp q op = mqSort (q ++ opMsgs op) := by
  cases op <;> rfl

theorem applyOps_spec (t : Nat) :
    ∀ (ops : List MQOp) (q base : List Message),
      q.filter (fun a => a.created_at == t)
        = base.filter (fun a => a.created_at == t) →
      MQSorted q →
      MQSorted (applyOps q ops)
      ∧ (applyOps q ops).filter (fun a => a.created_at == t)
        = (base ++ (ops.map opMsgs).flatten).filter
            (fun a => a.created_at == t) := by
  intro ops
  induction ops with
  | nil =>
    intro q base hfil hq
    exact ⟨hq, by simpa using hfil⟩
  | cons op ops ih =>
    intro q base hfil hq
    have hstep : (applyOp q op).filter (fun a => a.created_at == t)
        = (base ++ opMsgs op).filter (fun a => a.created_at == t) := by
      rw [applyOp_eq, mqSort_filter, List.filter_append, List.filter_append,
          hfil]
    have hsorted : MQSorted (applyOp q op) := by
      rw [applyOp_eq]; exact mqSort_sorted _
    have main := ih (applyOp q op) (base ++ opMsgs op) hstep hsorted
    refine ⟨?_, ?_⟩
    · simpa [applyOps, List.foldl_cons] using main.1
    · have h2 := main.2
      simp only [applyOps, List.foldl_cons] at h2 ⊢
      rw [h2, List.map_cons, List.flatten_cons, List.append_assoc]

/-- C9: MessageQueue sort invariant.  For every initial construction and
every sequence of `append`/`extend` mutations, iterating the queue
yields messages in non-decreasing `created_at` order, and for every
timestamp the subsequence of messages carrying it equals the insertion
sequence restricted to that timestamp — equal-timestamp messages keep
their relative insertion order (stable sort). -/
theorem c9_queue_sort_invariant (init : List Message) (ops : List MQOp)
    (t : Nat) :
    MQSorted (applyOps (mqNew init) ops)
    ∧ (applyOps (mqNew init) ops).filter (fun a => a.created_at == t)
      = (init ++ (ops.map opMsgs).flatten).filter
          (fun a => a.created_at == t) :=
  applyOps_spec t ops (mqNew init) init (mqSort_filter init t)
    (mqSort_sorted init)

/-- Looking a key up after storing it at the end of a previously keyless
map finds the stored instance. -/
theorem lookupInst_append_self (l : List (Nat × Inst)) (k : Nat) (i : Inst)
    (h : lookupInst l k = none) :
    lookupInst (l ++ [(k, i)]) k = some i := by
  unfold lookupInst at *
  rw [List.find?_append]
  have hf : l.find? (fun p => p.1 == k) = none := by
    cases hx : l.find? (fun p => p.1 == k) with
    | none => rfl
    | some v => rw [hx] at h; simp at h
  rw [hf]
  simp [List.find?]

/-- C10: singleton construction.  For a class whose metaclass is
`SingletonMeta`: when the class's key has no stored instance yet, a
constructor call on a class whose instances carry `__singleton__ = True`
stores the fresh instance and returns it, and every later constructor
call for that key returns that identical stored instance with the
registry unchanged; when the instance does not carry
`__singleton__ = True`, the final `cls._instances[key]` lookup finds no
entry and construction raises `KeyError`. -/
theorem c10_singleton_construction (st st2 : SMState) (key : Nat) (i : Inst)
    (habs : lookupInst st.instances key = none)
    (hpre : lookupInst st2.instances key = some i) :
    singletonCall key true st
      = (.ok ⟨st.nextId, true⟩,
         ⟨st.instances ++ [(key, ⟨st.nextId, true⟩)], st.nextId + 1⟩)
    ∧ (∀ flag, singletonCall key flag st2 = (.ok i, st2))
    ∧ singletonCall key false st
      = (.error (.keyError key), { st with nextId := st.nextId + 1 }) := by
  refine ⟨?_, ?_, ?_⟩
  · simp [singletonCall, habs,
      lookupInst_append_self st.instances key ⟨st.nextId, true⟩ habs]
  · intro flag
    simp [singletonCall, hpre]
  · simp [singletonCall, habs]

/-- Witness for C10: fresh registry, key 9. -/
theorem c10_singleton_construction_witness :
    singletonCall 9 true ⟨[], 0⟩
      = (.ok ⟨0, true⟩, ⟨[(9, ⟨0, true⟩)], 1⟩)
    ∧ (∀ flag, singletonCall 9 flag ⟨[(9, ⟨0, true⟩)], 1⟩
        = (.ok ⟨0, true⟩, ⟨[(9, ⟨0, true⟩)], 1⟩))
    ∧ singletonCall 9 false ⟨[], 0⟩
      = (.error (.keyError 9), ⟨[], 1⟩) :=
  c10_singleton_construction ⟨[], 0⟩ ⟨[(9, ⟨0, true⟩)], 1⟩ 9 ⟨0, true⟩
    rfl rfl

end DDD
